import Mathlib

/-!
# Verification of the agent proposal/confirmation workflow

Shallow embedding of the agent-event subsystem of the productivity backend:
the `agentPropose`, `createAgentEvent`, `updateAgentEvent` and `agentConfirm`
handlers, together with the slice of the relational store they touch
(workspaces, users, notes, tasks, agent_events).

Modelling conventions:
* JavaScript values reaching the handlers are modelled by `Json`; an absent
  property (`undefined`) is `Option.none` at the access site (`JsVal`).
* The relational store is a record of lists; `insert` appends a row with a
  freshly generated id, `update ... where id = x` maps over the rows.
* Postgres column constraints (`notNull`, foreign keys, enum columns) are
  enforced by the insert/update helpers, which fail with an error just as a
  rejected SQL statement would; a failed statement leaves the store unchanged.
* Timestamp columns are `Nat` ticks taken from the store's current clock
  (`DB.now`); `Date` values inside payloads (`due_at`) are kept as the raw
  `Json` value, since nothing in the verified claims inspects them.
-/

namespace AgentOS

/-- JSON values (the `Record<string, any>` payloads of the handlers). -/
inductive Json where
  | null : Json
  | bool : Bool → Json
  | num : Int → Json
  | str : String → Json
  | arr : List Json → Json
  | obj : List (String × Json) → Json
deriving Repr

/-- A JavaScript value at a property-access site: `none` is `undefined`. -/
abbrev JsVal := Option Json

/-- `payload.key` in JavaScript: object property lookup, `undefined` when the
key is absent or the value is not an object. -/
def Json.lookup : Json → String → JsVal
  | .obj fields, k =>
    match fields.find? (fun p => p.fst == k) with
    | some p => some p.snd
    | none => none
  | _, _ => none

/-- JavaScript truthiness of a value (`undefined`, `null`, `false`, `0` and
`""` are falsy; objects and arrays are always truthy). -/
def jsTruthy : JsVal → Bool
  | none => false
  | some .null => false
  | some (.bool b) => b
  | some (.num n) => decide (n ≠ 0)
  | some (.str s) => decide (s ≠ "")
  | some (.arr _) => true
  | some (.obj _) => true

/-- JavaScript `a || b`. -/
def jsOr (a b : JsVal) : JsVal := if jsTruthy a then a else b

/-- String interpolation of a JavaScript value (`${x}` in a template). -/
def displayJs : JsVal → String
  | none => "undefined"
  | some .null => "null"
  | some (.bool true) => "true"
  | some (.bool false) => "false"
  | some (.num n) => toString n
  | some (.str s) => s
  | some (.arr _) => ""
  | some (.obj _) => "[object Object]"

/-- The `agent_event_status` enum. -/
inductive AgentEventStatus where
  | draft
  | awaiting_confirmation
  | executed
  | error
deriving Repr, DecidableEq

/-- Rendering of a status value inside an error message template. -/
def AgentEventStatus.toText : AgentEventStatus → String
  | .draft => "draft"
  | .awaiting_confirmation => "awaiting_confirmation"
  | .executed => "executed"
  | .error => "error"

/-- The `task_status` enum. -/
inductive TaskStatus where
  | todo
  | doing
  | done
deriving Repr, DecidableEq

/-- The `task_priority` enum. -/
inductive TaskPriority where
  | low
  | med
  | high
deriving Repr, DecidableEq

/-- The string stored for a priority value. -/
def TaskPriority.toText : TaskPriority → String
  | .low => "low"
  | .med => "med"
  | .high => "high"

/-- The `note_source` enum (`import` renamed to `imported`, a Lean keyword). -/
inductive NoteSource where
  | manual
  | meeting
  | imported
deriving Repr, DecidableEq

/-- A row of the `notes` table. -/
structure NoteRow where
  id : String
  workspace_id : String
  title : String
  source : NoteSource
  content_md : Option String
  transcript_text : Option String
  summary_text : Option String
  entities : Option Json
  created_by : String
  created_at : Nat
  updated_at : Nat
deriving Repr

/-- A row of the `tasks` table.  `due_at` keeps the raw payload value the
`new Date(...)` call was given (dates are otherwise uninterpreted here). -/
structure TaskRow where
  id : String
  workspace_id : String
  title : String
  description : Option String
  status : TaskStatus
  priority : TaskPriority
  due_at : Option Json
  assignee_id : String
  linked_note_id : Option String
  created_at : Nat
  updated_at : Nat
deriving Repr

/-- A row of the `agent_events` table. -/
structure AgentEventRow where
  id : String
  workspace_id : String
  agent : String
  action : String
  input : Option Json
  output : Option Json
  status : AgentEventStatus
  created_at : Nat
deriving Repr

/-- The slice of the relational store the agent workflow touches.  Users and
workspaces only matter through their ids (foreign-key targets). -/
structure DB where
  users : List String
  workspaces : List String
  notes : List NoteRow
  tasks : List TaskRow
  agentEvents : List AgentEventRow
  nextId : Nat
  now : Nat
deriving Repr

/-- Generated row id (`uuid ... defaultRandom()`, abstracted to a counter). -/
def genId (n : Nat) : String := "id" ++ toString n

/-- `select * from agent_events where id = eventId` (first match). -/
def findAgentEvent (rows : List AgentEventRow) (eventId : String) : Option AgentEventRow :=
  rows.find? (fun e => e.id == eventId)

/-- `update agent_events set status = st, output = out where id = eventId`. -/
def setEventStatusOutput (rows : List AgentEventRow) (eventId : String)
    (st : AgentEventStatus) (out : Option Json) : List AgentEventRow :=
  rows.map (fun e => if e.id == eventId then { e with status := st, output := out } else e)

/-- The failures `agentConfirm` can throw, tagged by the `throw new Error(...)`
site producing them (`insertFailed`/`updateFailed` stand for errors raised by
the store itself on a rejected statement). -/
inductive ConfirmError where
  | notFound (eventId : String)
  | invalidState (eventId : String) (st : AgentEventStatus)
  | noInput (ctx : String)
  | noteNotFound (noteId : String)
  | unsupportedAction (agent action : String)
  | insertFailed (msg : String)
  | updateFailed (msg : String)
deriving Repr, DecidableEq

/-- The `error.message` string of each failure, following the handler's
template literals (store-raised messages are kept verbatim). -/
def ConfirmError.message : ConfirmError → String
  | .notFound eventId => "Agent event not found: " ++ eventId
  | .invalidState eventId st =>
      "Agent event " ++ eventId ++ " is not awaiting confirmation. Current status: " ++ st.toText
  | .noInput ctx => "No input data found for " ++ ctx
  | .noteNotFound noteId => "Note not found: " ++ noteId
  | .unsupportedAction agent action => "Unsupported agent action: " ++ agent ++ "/" ++ action
  | .insertFailed msg => msg
  | .updateFailed msg => msg

/-- A `notNull` uuid column with a foreign key: the value must be a string
naming an existing row of the referenced table. -/
def requireFk (v : JsVal) (table : List String) (col : String) : Except ConfirmError String :=
  match v with
  | some (.str s) =>
      if table.contains s then .ok s
      else .error (.insertFailed ("foreign key violation on " ++ col))
  | _ => .error (.insertFailed ("invalid value for " ++ col))

/-- A `notNull` text column: the value must be a string. -/
def requireText (v : JsVal) (col : String) : Except ConfirmError String :=
  match v with
  | some (.str s) => .ok s
  | _ => .error (.insertFailed ("invalid value for " ++ col))

/-- A nullable text column: `null`/absent store NULL, a string stores itself. -/
def nullableText (v : JsVal) (col : String) : Except ConfirmError (Option String) :=
  match v with
  | none => .ok none
  | some .null => .ok none
  | some (.str s) => .ok (some s)
  | _ => .error (.insertFailed ("invalid value for " ++ col))

/-- The `task_priority` enum column. -/
def parsePriority (v : JsVal) : Except ConfirmError TaskPriority :=
  match v with
  | some (.str "low") => .ok .low
  | some (.str "med") => .ok .med
  | some (.str "high") => .ok .high
  | _ => .error (.insertFailed "invalid value for tasks.priority")

/-- A nullable uuid column with a foreign key. -/
def nullableFk (v : JsVal) (table : List String) (col : String) :
    Except ConfirmError (Option String) :=
  match v with
  | none => .ok none
  | some .null => .ok none
  | some (.str s) =>
      if table.contains s then .ok (some s)
      else .error (.insertFailed ("foreign key violation on " ++ col))
  | _ => .error (.insertFailed ("invalid value for " ++ col))

/-- The `TaskAgent`/`create_task` branch of `agentConfirm`: read each payload
field with the handler's `||` defaults, insert the task row (store constraints
checked), and produce the `actionOutput` object.  A rejected insert leaves the
store unchanged. -/
def executeCreateTask (db : DB) (payload : Json) : Except ConfirmError (DB × Json) :=
  match requireFk (payload.lookup "workspace_id") db.workspaces "tasks.workspace_id" with
  | .error e => .error e
  | .ok w =>
  match requireText (payload.lookup "title") "tasks.title" with
  | .error e => .error e
  | .ok t =>
  match nullableText (jsOr (payload.lookup "description") (some .null)) "tasks.description" with
  | .error e => .error e
  | .ok d =>
  match parsePriority (jsOr (payload.lookup "priority") (some (.str "med"))) with
  | .error e => .error e
  | .ok p =>
  match requireFk (payload.lookup "assignee_id") db.users "tasks.assignee_id" with
  | .error e => .error e
  | .ok a =>
  match nullableFk (jsOr (payload.lookup "linked_note_id") (some .null))
      (db.notes.map (fun n => n.id)) "tasks.linked_note_id" with
  | .error e => .error e
  | .ok ln =>
    .ok ({ db with nextId := db.nextId + 1, tasks := db.tasks ++
            [{ id := genId db.nextId, workspace_id := w, title := t, description := d,
               status := .todo, priority := p,
               due_at := if jsTruthy (payload.lookup "due_at") then payload.lookup "due_at"
                         else none,
               assignee_id := a, linked_note_id := ln,
               created_at := db.now, updated_at := db.now }] },
      Json.obj [("task_id", .str (genId db.nextId)),
                ("message", .str "Task created successfully")])

/-- A text column assignment in the note-update `updateData` object: outer
`none` means the key was absent from the payload and the column is not set. -/
def optSetText (v : JsVal) (col : String) : Except ConfirmError (Option (Option String)) :=
  match v with
  | none => .ok none
  | some .null => .ok (some none)
  | some (.str s) => .ok (some (some s))
  | _ => .error (.updateFailed ("invalid value for " ++ col))

/-- A json column assignment: a present `null` stores NULL, any other present
value stores itself. -/
def optSetJson (v : JsVal) : Option (Option Json) :=
  match v with
  | none => none
  | some .null => some none
  | some j => some (some j)

/-- `eq(notesTable.id, noteInput.note_id)`: a row matches only when the payload
value is the row's id string. -/
def noteIdEq (n : NoteRow) (v : JsVal) : Bool :=
  match v with
  | some (.str s) => n.id == s
  | _ => false

/-- Apply the note-update `updateData` object to one row: each column present
in it (outer `some`) is overwritten, and `updated_at` is refreshed. -/
def applyNoteUpdate (note : NoteRow) (su cm : Option (Option String))
    (en : Option (Option Json)) (now : Nat) : NoteRow :=
  { note with
    summary_text := su.getD note.summary_text,
    content_md := cm.getD note.content_md,
    entities := en.getD note.entities,
    updated_at := now }

/-- The `NoteAgent`/`update_note` branch of `agentConfirm`: collect the
`updateData` keys present in the payload, run the update on the matching note
(also refreshing `updated_at`), fail when no row matched, and produce the
`actionOutput` object. -/
def executeUpdateNote (db : DB) (payload : Json) : Except ConfirmError (DB × Json) :=
  match optSetText (payload.lookup "summary_text") "notes.summary_text" with
  | .error e => .error e
  | .ok su =>
  match optSetText (payload.lookup "content_md") "notes.content_md" with
  | .error e => .error e
  | .ok cm =>
  match db.notes.find? (fun n => noteIdEq n (payload.lookup "note_id")) with
  | none => .error (.noteNotFound (displayJs (payload.lookup "note_id")))
  | some note =>
      .ok ({ db with notes := db.notes.map (fun n =>
              if n.id == note.id then
                applyNoteUpdate note su cm (optSetJson (payload.lookup "entities")) db.now
              else n) },
        Json.obj [("note_id", .str note.id), ("message", .str "Note updated successfully")])

/-- The executor dispatch of `agentConfirm` (lines 55–117 of the handler):
the if/else chain on the `(agent, action)` pair, with the unsupported-action
throw as the final else. -/
def dispatchAction (db : DB) (ev : AgentEventRow) : Except ConfirmError (DB × Json) :=
  if ev.agent = "TaskAgent" ∧ ev.action = "create_task" then
    match ev.input with
    | none => .error (.noInput "task creation")
    | some payload => executeCreateTask db payload
  else if ev.agent = "NoteAgent" ∧ ev.action = "update_note" then
    match ev.input with
    | none => .error (.noInput "note update")
    | some payload => executeUpdateNote db payload
  else
    .error (.unsupportedAction ev.agent ev.action)

/-- The read-and-validate phase of `agentConfirm`: load the event, then require
`awaiting_confirmation`. -/
def confirmValidate (db : DB) (eventId : String) : Except ConfirmError AgentEventRow :=
  match findAgentEvent db.agentEvents eventId with
  | none => .error (.notFound eventId)
  | some ev =>
      if ev.status = .awaiting_confirmation then .ok ev
      else .error (.invalidState eventId ev.status)

/-- The catch block of `agentConfirm`: best-effort write of the terminal
`error` status with the failure message (a no-op when the id matches no row). -/
def setEventError (db : DB) (eventId : String) (e : ConfirmError) : DB :=
  { db with agentEvents :=
      (setEventStatusOutput db.agentEvents eventId .error
        (some (Json.obj [("error", Json.str e.message)]))) }

/-- The execute-and-write phase of `agentConfirm`: run the dispatched executor,
then persist `executed` with the action output, or fall into the catch block on
failure.  (Every executor failure happens before it has written anything, so
the catch block sees the store it started from.) -/
def confirmExecute (db : DB) (eventId : String) (ev : AgentEventRow) :
    DB × Except ConfirmError AgentEventRow :=
  match dispatchAction db ev with
  | .error e => (setEventError db eventId e, .error e)
  | .ok (db1, out) =>
      ({ db1 with agentEvents := setEventStatusOutput db1.agentEvents eventId .executed (some out) },
       .ok { ev with status := .executed, output := some out })

/-- The `agentConfirm` handler: validate, dispatch and persist; any failure is
caught once, downgrades the event to `error` (best-effort) and is re-thrown. -/
def agentConfirm (db : DB) (eventId : String) : DB × Except ConfirmError AgentEventRow :=
  match confirmValidate db eventId with
  | .error e => (setEventError db eventId e, .error e)
  | .ok ev => confirmExecute db eventId ev

/-- The static agent-to-action table of `agentPropose`. -/
def agentActionsTable : List (String × String) :=
  [("NoteTakingAgent", "create_note"),
   ("TaskAgent", "create_task"),
   ("SchedulerAgent", "create_calendar_event"),
   ("KnowledgeAgent", "extract_knowledge")]

/-- `agentActions[input.agent] || 'propose_action'` (every table value is a
nonempty, hence truthy, string). -/
def resolveAction (agent : String) : String :=
  match agentActionsTable.lookup agent with
  | some a => a
  | none => "propose_action"

/-- The `agentPropose` handler: resolve the action, insert a `draft` event with
the payload as `input` and a null `output`.  The insert is rejected when the
workspace foreign key dangles. -/
def agentPropose (db : DB) (agent : String) (inputJson : Json) (workspaceId : String) :
    DB × Except String AgentEventRow :=
  if db.workspaces.contains workspaceId then
    ({ db with nextId := db.nextId + 1, agentEvents := db.agentEvents ++
        [{ id := genId db.nextId, workspace_id := workspaceId, agent := agent,
           action := resolveAction agent, input := some inputJson, output := none,
           status := .draft, created_at := db.now }] },
     .ok { id := genId db.nextId, workspace_id := workspaceId, agent := agent,
           action := resolveAction agent, input := some inputJson, output := none,
           status := .draft, created_at := db.now })
  else
    (db, .error "foreign key violation on agent_events.workspace_id")

/-- Parsed input of `createAgentEvent`; `input`/`output` collapse `undefined`
and `null` to `none` (the handler stores `input.input || null`, and a record
value is always truthy), `status` carries the schema default `draft`. -/
structure CreateAgentEventInput where
  workspace_id : String
  agent : String
  action : String
  input : Option Json := none
  output : Option Json := none
  status : AgentEventStatus := .draft

/-- The `createAgentEvent` handler: insert a row with exactly the supplied
fields (workspace foreign key checked by the store). -/
def createAgentEvent (db : DB) (inp : CreateAgentEventInput) :
    DB × Except String AgentEventRow :=
  if db.workspaces.contains inp.workspace_id then
    ({ db with nextId := db.nextId + 1, agentEvents := db.agentEvents ++
        [{ id := genId db.nextId, workspace_id := inp.workspace_id, agent := inp.agent,
           action := inp.action, input := inp.input, output := inp.output,
           status := inp.status, created_at := db.now }] },
     .ok { id := genId db.nextId, workspace_id := inp.workspace_id, agent := inp.agent,
           action := inp.action, input := inp.input, output := inp.output,
           status := inp.status, created_at := db.now })
  else
    (db, .error "foreign key violation on agent_events.workspace_id")

/-- Parsed input of `updateAgentEvent`: each field is applied only when it was
present (`!== undefined`); for `output` a present `null` (`some none`) is
applied and stores NULL. -/
structure UpdateAgentEventInput where
  id : String
  output : Option (Option Json) := none
  status : Option AgentEventStatus := none

/-- The `updateAgentEvent` handler: build `updateValues` from the present
fields, run the update, and fail when no row matched.  An empty `updateValues`
object is rejected by the query builder before anything runs. -/
def updateAgentEvent (db : DB) (inp : UpdateAgentEventInput) :
    DB × Except String AgentEventRow :=
  if inp.output.isNone && inp.status.isNone then
    (db, .error "No values to set")
  else
    let rows' := db.agentEvents.map (fun e =>
      if e.id == inp.id then
        { e with output := inp.output.getD e.output, status := inp.status.getD e.status }
      else e)
    match findAgentEvent rows' inp.id with
    | none => (db, .error ("Agent event with id " ++ inp.id ++ " not found"))
    | some ev => ({ db with agentEvents := rows' }, .ok ev)

/-- One invocation of an agent-event operation, for reasoning about the states
reachable through the proposal API. -/
inductive AgentOp where
  | propose (agent : String) (payload : Json) (workspaceId : String)
  | create (inp : CreateAgentEventInput)
  | patch (inp : UpdateAgentEventInput)
  | confirm (eventId : String)

/-- The store left behind by one operation. -/
def applyOp (db : DB) : AgentOp → DB
  | .propose agent payload workspaceId => (agentPropose db agent payload workspaceId).1
  | .create inp => (createAgentEvent db inp).1
  | .patch inp => (updateAgentEvent db inp).1
  | .confirm eventId => (agentConfirm db eventId).1

/-- The store left behind by a sequence of operations. -/
def applyOps (db : DB) (ops : List AgentOp) : DB := ops.foldl applyOp db

/-! ## Shared lemmas -/

/-- Looking an event up after a status/output update returns the updated row. -/
theorem findAgentEvent_set (rows : List AgentEventRow) (eventId : String)
    (st : AgentEventStatus) (out : Option Json) :
    findAgentEvent (setEventStatusOutput rows eventId st out) eventId =
      (findAgentEvent rows eventId).map (fun e => { e with status := st, output := out }) := by
  induction rows with
  | nil => rfl
  | cons e rest ih =>
    simp only [setEventStatusOutput, List.map_cons, findAgentEvent, List.find?]
    by_cases h : (e.id == eventId) = true
    · simp [h]
    · simp only [h, Bool.false_eq_true, if_false, cond_false]
      simpa [setEventStatusOutput, findAgentEvent] using ih

/-- A successful task insert touches only `tasks` and the id generator. -/
theorem executeCreateTask_ok_frame (db : DB) (payload : Json) (db1 : DB) (out : Json)
    (h : executeCreateTask db payload = .ok (db1, out)) :
    db1.agentEvents = db.agentEvents ∧ db1.notes = db.notes ∧
      db1.users = db.users ∧ db1.workspaces = db.workspaces := by
  unfold executeCreateTask at h
  repeat' split at h
  all_goals first
    | (exfalso; exact Except.noConfusion h)
    | (simp only [Except.ok.injEq, Prod.mk.injEq] at h
       obtain ⟨rfl, rfl⟩ := h
       exact ⟨rfl, rfl, rfl, rfl⟩)

/-- A successful note update touches only `notes`. -/
theorem executeUpdateNote_ok_frame (db : DB) (payload : Json) (db1 : DB) (out : Json)
    (h : executeUpdateNote db payload = .ok (db1, out)) :
    db1.agentEvents = db.agentEvents ∧ db1.tasks = db.tasks ∧
      db1.users = db.users ∧ db1.workspaces = db.workspaces := by
  unfold executeUpdateNote at h
  repeat' split at h
  all_goals first
    | (exfalso; exact Except.noConfusion h)
    | (simp only [Except.ok.injEq, Prod.mk.injEq] at h
       obtain ⟨rfl, rfl⟩ := h
       exact ⟨rfl, rfl, rfl, rfl⟩)

/-- A successful dispatch never touches the `agent_events` table. -/
theorem dispatchAction_ok_agentEvents (db : DB) (ev : AgentEventRow) (db1 : DB) (out : Json)
    (h : dispatchAction db ev = .ok (db1, out)) : db1.agentEvents = db.agentEvents := by
  unfold dispatchAction at h
  split at h
  · match hi : ev.input with
    | none => rw [hi] at h; exact absurd h (by simp)
    | some payload => rw [hi] at h; exact (executeCreateTask_ok_frame db payload db1 out h).1
  · split at h
    · match hi : ev.input with
      | none => rw [hi] at h; exact absurd h (by simp)
      | some payload => rw [hi] at h; exact (executeUpdateNote_ok_frame db payload db1 out h).1
    · exact absurd h (by simp)

/-- When the event exists and awaits confirmation, validation loads it. -/
theorem confirmValidate_ok (db : DB) (eventId : String) (ev : AgentEventRow)
    (hfind : findAgentEvent db.agentEvents eventId = some ev)
    (hst : ev.status = .awaiting_confirmation) :
    confirmValidate db eventId = .ok ev := by
  unfold confirmValidate
  rw [hfind]
  simp [hst]

/-- After any confirm attempt on an existing awaiting event, the stored event
is terminal (`executed` or `error`). -/
theorem agentConfirm_terminal_aux (db : DB) (eventId : String) (ev : AgentEventRow)
    (hfind : findAgentEvent db.agentEvents eventId = some ev)
    (hst : ev.status = .awaiting_confirmation) :
    ∃ ev', findAgentEvent (agentConfirm db eventId).1.agentEvents eventId = some ev' ∧
      (ev'.status = .executed ∨ ev'.status = .error) := by
  have h1 : agentConfirm db eventId = confirmExecute db eventId ev := by
    simp only [agentConfirm, confirmValidate_ok db eventId ev hfind hst]
  rw [h1]
  rcases hd : dispatchAction db ev with e | ⟨db1, out⟩ <;>
    simp only [confirmExecute, hd, setEventError]
  · rw [findAgentEvent_set, hfind, Option.map_some']
    exact ⟨_, rfl, Or.inr rfl⟩
  · rw [dispatchAction_ok_agentEvents db ev db1 out hd, findAgentEvent_set, hfind,
      Option.map_some']
    exact ⟨_, rfl, Or.inl rfl⟩

/-! ## Claim C1 -/

/-- An event already in the terminal `executed` status, with the output of its
earlier execution. -/
def c1Event : AgentEventRow :=
  { id := "e1", workspace_id := "w1", agent := "TaskAgent", action := "create_task",
    input := some (Json.obj [("title", Json.str "T")]),
    output := some (Json.obj [("task_id", Json.str "t7"),
                              ("message", Json.str "Task created successfully")]),
    status := .executed, created_at := 3 }

/-- A store holding only `c1Event`. -/
def c1Db : DB :=
  { users := ["u1"], workspaces := ["w1"], notes := [], tasks := [],
    agentEvents := [c1Event], nextId := 0, now := 9 }

/-- **C1**: the claim says a `confirm` on an event not in `awaiting_confirmation`
fails with an `InvalidStateError` and performs no write, leaving status and
output unchanged.  The failure is right, but the handler's catch-all error
branch then *does* write: confirming the already-`executed` event `e1`
overwrites it to status `error` with an `{error: ...}` output, so the record is
not left unchanged. -/
theorem c1_confirm_on_terminal_event_writes_error_status :
    (agentConfirm c1Db "e1").2 = .error (.invalidState "e1" .executed) ∧
    findAgentEvent (agentConfirm c1Db "e1").1.agentEvents "e1" =
      some { c1Event with
        status := .error,
        output := some (Json.obj [("error", Json.str
          "Agent event e1 is not awaiting confirmation. Current status: executed")]) } := by
  exact ⟨rfl, rfl⟩

/-! ## Claim C2 -/

/-- **C2**: a `confirm` on an `awaiting_confirmation` event whose
`(agent, action)` pair is not `(TaskAgent, create_task)` or
`(NoteAgent, update_note)` fails with the unsupported-action error and leaves
the event in status `error` with a non-null `{error: <message>}` output. -/
theorem c2_unregistered_pair_yields_unsupported_and_error_status
    (db : DB) (eventId : String) (ev : AgentEventRow)
    (hfind : findAgentEvent db.agentEvents eventId = some ev)
    (hst : ev.status = .awaiting_confirmation)
    (hreg : ¬ ((ev.agent = "TaskAgent" ∧ ev.action = "create_task") ∨
               (ev.agent = "NoteAgent" ∧ ev.action = "update_note"))) :
    (agentConfirm db eventId).2 = .error (.unsupportedAction ev.agent ev.action) ∧
    findAgentEvent (agentConfirm db eventId).1.agentEvents eventId =
      some { ev with
        status := .error,
        output := some (Json.obj [("error",
          Json.str ((ConfirmError.unsupportedAction ev.agent ev.action).message))]) } := by
  have hd : dispatchAction db ev = .error (.unsupportedAction ev.agent ev.action) := by
    unfold dispatchAction
    rw [if_neg (fun hc => hreg (Or.inl hc)), if_neg (fun hc => hreg (Or.inr hc))]
  have h1 : agentConfirm db eventId = confirmExecute db eventId ev := by
    simp only [agentConfirm, confirmValidate_ok db eventId ev hfind hst]
  rw [h1]
  simp only [confirmExecute, hd, setEventError]
  refine ⟨by trivial, ?_⟩
  rw [findAgentEvent_set, hfind, Option.map_some']

/-- The store of the C2 witness: event `e9` awaits confirmation with the
unregistered pair `(UnknownAgent, unknown_action)`. -/
def c2Db : DB :=
  { users := ["u1"], workspaces := ["w1"], notes := [], tasks := [],
    agentEvents := [{ id := "e9", workspace_id := "w1", agent := "UnknownAgent",
                      action := "unknown_action", input := some (Json.obj []),
                      output := none, status := .awaiting_confirmation, created_at := 0 }],
    nextId := 0, now := 4 }

/-- Witness for C2 at the concrete store `c2Db`. -/
theorem c2_witness :
    (agentConfirm c2Db "e9").2 =
      .error (.unsupportedAction "UnknownAgent" "unknown_action") ∧
    findAgentEvent (agentConfirm c2Db "e9").1.agentEvents "e9" =
      some { id := "e9", workspace_id := "w1", agent := "UnknownAgent",
             action := "unknown_action", input := some (Json.obj []),
             output := some (Json.obj [("error", Json.str
               ((ConfirmError.unsupportedAction "UnknownAgent" "unknown_action").message))]),
             status := .error, created_at := 0 } :=
  c2_unregistered_pair_yields_unsupported_and_error_status c2Db "e9" _ rfl rfl (by decide)

/-! ## Claim C3 -/

/-- **C3**: `agentPropose` (run against an existing workspace, so that the
insert's foreign key is satisfiable) always resolves an action and creates an
AgentEvent with status `draft`, `input` the given payload and `output` null;
the action comes from the static agent table, and any agent outside the table
gets the fallback `propose_action`. -/
theorem c3_propose_creates_draft_with_resolved_action
    (db : DB) (agent : String) (payload : Json) (workspaceId : String)
    (hws : db.workspaces.contains workspaceId = true) :
    (∃ ev, (agentPropose db agent payload workspaceId).2 = .ok ev ∧
      ev.status = .draft ∧ ev.input = some payload ∧ ev.output = none ∧
      ev.action = resolveAction agent ∧
      ev ∈ (agentPropose db agent payload workspaceId).1.agentEvents) ∧
    resolveAction "NoteTakingAgent" = "create_note" ∧
    resolveAction "TaskAgent" = "create_task" ∧
    resolveAction "SchedulerAgent" = "create_calendar_event" ∧
    resolveAction "KnowledgeAgent" = "extract_knowledge" ∧
    (agent ∉ ["NoteTakingAgent", "TaskAgent", "SchedulerAgent", "KnowledgeAgent"] →
      resolveAction agent = "propose_action") := by
  constructor
  · unfold agentPropose
    rw [if_pos hws]
    exact ⟨_, rfl, rfl, rfl, rfl, rfl, by simp⟩
  · refine ⟨rfl, rfl, rfl, rfl, ?_⟩
    intro hmem
    simp only [List.mem_cons, List.not_mem_nil, or_false, not_or] at hmem
    obtain ⟨h1, h2, h3, h4⟩ := hmem
    have b1 : (agent == "NoteTakingAgent") = false := by simp [h1]
    have b2 : (agent == "TaskAgent") = false := by simp [h2]
    have b3 : (agent == "SchedulerAgent") = false := by simp [h3]
    have b4 : (agent == "KnowledgeAgent") = false := by simp [h4]
    simp [resolveAction, agentActionsTable, List.lookup, b1, b2, b3, b4]

/-- The store of the C3 witness: one workspace, no events yet. -/
def c3Db : DB :=
  { users := [], workspaces := ["w1"], notes := [], tasks := [],
    agentEvents := [], nextId := 0, now := 1 }

/-- Witness for C3 at the concrete store `c3Db` with the unknown agent
`FooAgent`. -/
theorem c3_witness :
    (∃ ev, (agentPropose c3Db "FooAgent" (Json.obj []) "w1").2 = .ok ev ∧
      ev.status = .draft ∧ ev.input = some (Json.obj []) ∧ ev.output = none ∧
      ev.action = resolveAction "FooAgent" ∧
      ev ∈ (agentPropose c3Db "FooAgent" (Json.obj []) "w1").1.agentEvents) ∧
    resolveAction "NoteTakingAgent" = "create_note" ∧
    resolveAction "TaskAgent" = "create_task" ∧
    resolveAction "SchedulerAgent" = "create_calendar_event" ∧
    resolveAction "KnowledgeAgent" = "extract_knowledge" ∧
    ("FooAgent" ∉ ["NoteTakingAgent", "TaskAgent", "SchedulerAgent", "KnowledgeAgent"] →
      resolveAction "FooAgent" = "propose_action") :=
  c3_propose_creates_draft_with_resolved_action c3Db "FooAgent" (Json.obj []) "w1" rfl

/-! ## Claim C6 -/

/-- **C6**: after a single `confirm` attempt on an `awaiting_confirmation`
event — whether the call returns normally or throws — the stored event is in
status `executed` or `error`, never still `awaiting_confirmation`. -/
theorem c6_confirm_attempt_leaves_terminal_status
    (db : DB) (eventId : String) (ev : AgentEventRow)
    (hfind : findAgentEvent db.agentEvents eventId = some ev)
    (hst : ev.status = .awaiting_confirmation) :
    ∃ ev', findAgentEvent (agentConfirm db eventId).1.agentEvents eventId = some ev' ∧
      (ev'.status = .executed ∨ ev'.status = .error) :=
  agentConfirm_terminal_aux db eventId ev hfind hst

/-- The store of the C6 witness: an awaiting event with an input missing every
required task field, so the confirm attempt throws mid-execution. -/
def c6Db : DB :=
  { users := ["u1"], workspaces := ["w1"], notes := [], tasks := [],
    agentEvents := [{ id := "e6", workspace_id := "w1", agent := "TaskAgent",
                      action := "create_task",
                      input := some (Json.obj [("title", Json.str "T")]),
                      output := none, status := .awaiting_confirmation, created_at := 0 }],
    nextId := 0, now := 2 }

/-- Witness for C6 at the concrete store `c6Db`. -/
theorem c6_witness :
    ∃ ev', findAgentEvent (agentConfirm c6Db "e6").1.agentEvents "e6" = some ev' ∧
      (ev'.status = .executed ∨ ev'.status = .error) :=
  c6_confirm_attempt_leaves_terminal_status c6Db "e6" _ rfl rfl

/-! ## Claim C8 -/

/-- The fields of an event that the system never mutates after creation. -/
def frameFields (ev : AgentEventRow) : String × String × String × String × Option Json × Nat :=
  (ev.id, ev.workspace_id, ev.agent, ev.action, ev.input, ev.created_at)

/-- Mapping a row transformer that keeps the frame fields keeps them across
the table. -/
theorem map_frameFields_of_preserve (rows : List AgentEventRow)
    (g : AgentEventRow → AgentEventRow) (h : ∀ e, frameFields (g e) = frameFields e) :
    (rows.map g).map frameFields = rows.map frameFields := by
  induction rows with
  | nil => rfl
  | cons e rest ih => simp only [List.map_cons, h, ih]

/-- A status/output write keeps every frame field of every row. -/
theorem map_frameFields_set (rows : List AgentEventRow) (eventId : String)
    (st : AgentEventStatus) (out : Option Json) :
    (setEventStatusOutput rows eventId st out).map frameFields = rows.map frameFields := by
  refine map_frameFields_of_preserve rows _ (fun e => ?_)
  by_cases h : (e.id == eventId) = true <;> simp [h, frameFields]

/-- **C8**: `updateAgentEvent` and `agentConfirm` can change only `status` and
`output`: the `id`, `workspace_id`, `agent`, `action`, `input` and `created_at`
of every stored event are identical before and after either call. -/
theorem c8_patch_and_confirm_touch_only_status_output
    (db : DB) (inp : UpdateAgentEventInput) (eventId : String) :
    (updateAgentEvent db inp).1.agentEvents.map frameFields =
      db.agentEvents.map frameFields ∧
    (agentConfirm db eventId).1.agentEvents.map frameFields =
      db.agentEvents.map frameFields := by
  constructor
  · unfold updateAgentEvent
    split
    · rfl
    · rcases hf : findAgentEvent (db.agentEvents.map (fun e =>
        if e.id == inp.id then
          { e with output := inp.output.getD e.output, status := inp.status.getD e.status }
        else e)) inp.id with _ | ev
      · simp only [hf]
      · simp only [hf]
        refine map_frameFields_of_preserve db.agentEvents _ (fun e => ?_)
        by_cases h : (e.id == inp.id) = true <;> simp [h, frameFields]
  · rcases hv : confirmValidate db eventId with e | ev
    · simp only [agentConfirm, hv, setEventError]
      exact map_frameFields_set db.agentEvents eventId .error _
    · simp only [agentConfirm, hv]
      rcases hd : dispatchAction db ev with e | ⟨db1, out⟩ <;>
        simp only [confirmExecute, hd, setEventError]
      · exact map_frameFields_set db.agentEvents eventId .error _
      · rw [dispatchAction_ok_agentEvents db ev db1 out hd]
        exact map_frameFields_set db.agentEvents eventId .executed _

/-! ## Claim C4 -/

/-- A create-task payload referencing workspace `w` and assignee `u`, with
title `t` and an optional priority. -/
def c4payload (w t u : String) (pr : Option TaskPriority) : Json :=
  Json.obj ([("workspace_id", Json.str w), ("title", Json.str t),
             ("assignee_id", Json.str u)] ++
    (match pr with
     | none => []
     | some p => [("priority", Json.str p.toText)]))

/-- The task row inserted for `c4payload`. -/
def c4row (db : DB) (w t u : String) (pr : Option TaskPriority) : TaskRow :=
  { id := genId db.nextId, workspace_id := w, title := t, description := none,
    status := .todo, priority := pr.getD .med, due_at := none, assignee_id := u,
    linked_note_id := none, created_at := db.now, updated_at := db.now }

/-- Running the create-task executor on `c4payload` inserts exactly `c4row`
and returns the success descriptor. -/
theorem executeCreateTask_c4 (db : DB) (w t u : String) (pr : Option TaskPriority)
    (hw : db.workspaces.contains w = true) (hu : db.users.contains u = true) :
    executeCreateTask db (c4payload w t u pr) = .ok
      ({ db with nextId := db.nextId + 1, tasks := db.tasks ++ [c4row db w t u pr] },
       Json.obj [("task_id", Json.str (genId db.nextId)),
                 ("message", Json.str "Task created successfully")]) := by
  have hw' : w ∈ db.workspaces := by simpa using hw
  have hu' : u ∈ db.users := by simpa using hu
  cases pr with
  | none =>
    simp [executeCreateTask, c4payload, c4row, Json.lookup, requireFk, requireText,
      nullableText, parsePriority, nullableFk, jsOr, jsTruthy, hw', hu']
  | some p =>
    cases p <;>
      simp [executeCreateTask, c4payload, c4row, Json.lookup, requireFk, requireText,
        nullableText, parsePriority, nullableFk, jsOr, jsTruthy, hw', hu', TaskPriority.toText]

/-- **C4**: confirming an awaiting `(TaskAgent, create_task)` event whose
payload references an existing workspace and assignee inserts exactly one task
row with the payload's title, status `todo` and the payload's priority (or the
`med` default when absent), and leaves the event `executed` with the
`{task_id, message}` output. -/
theorem c4_create_task_confirm_executes
    (db : DB) (eventId w t u : String) (pr : Option TaskPriority) (ev : AgentEventRow)
    (hfind : findAgentEvent db.agentEvents eventId = some ev)
    (hagent : ev.agent = "TaskAgent") (haction : ev.action = "create_task")
    (hst : ev.status = .awaiting_confirmation)
    (hinput : ev.input = some (c4payload w t u pr))
    (hw : db.workspaces.contains w = true) (hu : db.users.contains u = true) :
    (agentConfirm db eventId).1.tasks = db.tasks ++ [c4row db w t u pr] ∧
    findAgentEvent (agentConfirm db eventId).1.agentEvents eventId =
      some { ev with
             status := .executed,
             output := some (Json.obj [("task_id", Json.str (genId db.nextId)),
                                       ("message", Json.str "Task created successfully")]) } ∧
    (agentConfirm db eventId).2 =
      .ok { ev with
            status := .executed,
            output := some (Json.obj [("task_id", Json.str (genId db.nextId)),
                                      ("message", Json.str "Task created successfully")]) } := by
  have hd : dispatchAction db ev = .ok
      ({ db with nextId := db.nextId + 1, tasks := db.tasks ++ [c4row db w t u pr] },
       Json.obj [("task_id", Json.str (genId db.nextId)),
                 ("message", Json.str "Task created successfully")]) := by
    unfold dispatchAction
    rw [if_pos ⟨hagent, haction⟩, hinput]
    exact executeCreateTask_c4 db w t u pr hw hu
  have h1 : agentConfirm db eventId = confirmExecute db eventId ev := by
    simp only [agentConfirm, confirmValidate_ok db eventId ev hfind hst]
  rw [h1]
  simp only [confirmExecute, hd]
  refine ⟨?_, ?_, ?_⟩
  · trivial
  · have hAE : ({ db with nextId := db.nextId + 1, tasks := db.tasks ++ [c4row db w t u pr] }
        : DB).agentEvents = db.agentEvents := rfl
    rw [hAE, findAgentEvent_set, hfind, Option.map_some']
  · trivial

/-- The store of the C4 witness: workspace `w1`, user `u1`, and event `e4`
awaiting confirmation with a payload asking for a high-priority task. -/
def c4Db : DB :=
  { users := ["u1"], workspaces := ["w1"], notes := [], tasks := [],
    agentEvents := [{ id := "e4", workspace_id := "w1", agent := "TaskAgent",
                      action := "create_task",
                      input := some (c4payload "w1" "T" "u1" (some .high)),
                      output := none, status := .awaiting_confirmation, created_at := 0 }],
    nextId := 0, now := 6 }

/-- Witness for C4 at the concrete store `c4Db`. -/
theorem c4_witness :
    (agentConfirm c4Db "e4").1.tasks = c4Db.tasks ++ [c4row c4Db "w1" "T" "u1" (some .high)] ∧
    findAgentEvent (agentConfirm c4Db "e4").1.agentEvents "e4" =
      some { id := "e4", workspace_id := "w1", agent := "TaskAgent",
             action := "create_task",
             input := some (c4payload "w1" "T" "u1" (some .high)),
             output := some (Json.obj [("task_id", Json.str (genId c4Db.nextId)),
                                       ("message", Json.str "Task created successfully")]),
             status := .executed, created_at := 0 } ∧
    (agentConfirm c4Db "e4").2 =
      .ok { id := "e4", workspace_id := "w1", agent := "TaskAgent",
            action := "create_task",
            input := some (c4payload "w1" "T" "u1" (some .high)),
            output := some (Json.obj [("task_id", Json.str (genId c4Db.nextId)),
                                      ("message", Json.str "Task created successfully")]),
            status := .executed, created_at := 0 } :=
  c4_create_task_confirm_executes c4Db "e4" "w1" "T" "u1" (some .high) _
    rfl rfl rfl rfl rfl rfl rfl

/-! ## Claim C5 -/

/-- An update-note payload for note `nid`.  For the two text keys, outer `none`
means the key is absent, `some none` that it is present with value `null`, and
`some (some s)` that it is present with a string; `en` is the `entities` value
when that key is present. -/
def c5payload (nid : String) (su cm : Option (Option String)) (en : Option Json) : Json :=
  Json.obj ([("note_id", Json.str nid)] ++
    (match su with
     | none => []
     | some none => [("summary_text", Json.null)]
     | some (some s) => [("summary_text", Json.str s)]) ++
    (match cm with
     | none => []
     | some none => [("content_md", Json.null)]
     | some (some s) => [("content_md", Json.str s)]) ++
    (match en with
     | none => []
     | some j => [("entities", j)]))

/-- The entities column after the update: unchanged when the key was absent,
NULL for a present `null`, and the value itself otherwise. -/
def entitiesAfter (en : Option Json) (old : Option Json) : Option Json :=
  match en with
  | none => old
  | some .null => none
  | some j => some j

/-- The note row after the update described by `c5payload`. -/
def c5note (note : NoteRow) (su cm : Option (Option String)) (en : Option Json)
    (now : Nat) : NoteRow :=
  { note with
    summary_text := su.getD note.summary_text,
    content_md := cm.getD note.content_md,
    entities := entitiesAfter en note.entities,
    updated_at := now }

/-- The success descriptor of the note update. -/
def noteOkOutput (noteId : String) : Json :=
  Json.obj [("note_id", Json.str noteId), ("message", Json.str "Note updated successfully")]

/-- The payload's `note_id` reads back as given. -/
theorem c5payload_lookup_note_id (nid : String) (su cm : Option (Option String))
    (en : Option Json) :
    (c5payload nid su cm en).lookup "note_id" = some (Json.str nid) := by
  rcases su with _ | (_ | s) <;> rcases cm with _ | (_ | s2) <;> rcases en with _ | j <;> rfl

/-- The `summary_text` assignment collected from the payload is exactly `su`. -/
theorem c5_optSet_summary (nid : String) (su cm : Option (Option String)) (en : Option Json) :
    optSetText ((c5payload nid su cm en).lookup "summary_text") "notes.summary_text" =
      .ok su := by
  rcases su with _ | (_ | s) <;> rcases cm with _ | (_ | s2) <;> rcases en with _ | j <;> rfl

/-- The `content_md` assignment collected from the payload is exactly `cm`. -/
theorem c5_optSet_content (nid : String) (su cm : Option (Option String)) (en : Option Json) :
    optSetText ((c5payload nid su cm en).lookup "content_md") "notes.content_md" =
      .ok cm := by
  rcases su with _ | (_ | s) <;> rcases cm with _ | (_ | s2) <;> rcases en with _ | j <;> rfl

/-- Applying the collected `updateData` to a note gives `c5note`. -/
theorem c5_applyNoteUpdate (note : NoteRow) (nid : String) (su cm : Option (Option String))
    (en : Option Json) (now : Nat) :
    applyNoteUpdate note su cm (optSetJson ((c5payload nid su cm en).lookup "entities")) now =
      c5note note su cm en now := by
  rcases su with _ | (_ | s) <;> rcases cm with _ | (_ | s2) <;> rcases en with _ | j <;>
    first
    | rfl
    | (cases j <;> rfl)

/-- Running the update-note executor on `c5payload`: when a note with id `nid`
exists the present keys are applied to it (refreshing `updated_at`) and the
success descriptor is returned; otherwise it fails with the not-found error. -/
theorem executeUpdateNote_c5 (db : DB) (nid : String) (su cm : Option (Option String))
    (en : Option Json) :
    executeUpdateNote db (c5payload nid su cm en) =
      match db.notes.find? (fun n => n.id == nid) with
      | none => .error (.noteNotFound nid)
      | some note => .ok
          ({ db with notes := db.notes.map (fun n =>
              if n.id == note.id then c5note note su cm en db.now else n) },
           noteOkOutput note.id) := by
  unfold executeUpdateNote
  rw [c5_optSet_summary, c5_optSet_content]
  simp only [c5payload_lookup_note_id, noteIdEq, c5_applyNoteUpdate]
  cases hf : db.notes.find? (fun n => n.id == nid) with
  | none => simp [displayJs]
  | some note => simp [noteOkOutput]

/-- **C5**: confirming an awaiting `(NoteAgent, update_note)` event applies to
the note named by the payload's `note_id` exactly the present keys among
`summary_text`, `entities` and `content_md`, leaves its other fields and all
other notes unchanged, refreshes its `updated_at`, and returns the
`{note_id, message}` output; when no note matches, it fails with the
not-found error and the notes table is untouched. -/
theorem c5_update_note_confirm
    (db : DB) (eventId nid : String) (su cm : Option (Option String))
    (en : Option Json) (ev : AgentEventRow)
    (hfind : findAgentEvent db.agentEvents eventId = some ev)
    (hagent : ev.agent = "NoteAgent") (haction : ev.action = "update_note")
    (hst : ev.status = .awaiting_confirmation)
    (hinput : ev.input = some (c5payload nid su cm en)) :
    (∀ note, db.notes.find? (fun n => n.id == nid) = some note →
      (agentConfirm db eventId).1.notes = db.notes.map (fun n =>
        if n.id == note.id then c5note note su cm en db.now else n) ∧
      (agentConfirm db eventId).2 = .ok { ev with
        status := .executed, output := some (noteOkOutput note.id) } ∧
      findAgentEvent (agentConfirm db eventId).1.agentEvents eventId = some { ev with
        status := .executed, output := some (noteOkOutput note.id) }) ∧
    (db.notes.find? (fun n => n.id == nid) = none →
      (agentConfirm db eventId).2 = .error (.noteNotFound nid) ∧
      (agentConfirm db eventId).1.notes = db.notes) := by
  have hpair : ¬ (ev.agent = "TaskAgent" ∧ ev.action = "create_task") := by
    intro hc
    rw [hagent] at hc
    exact absurd hc.1 (by decide)
  have h1 : agentConfirm db eventId = confirmExecute db eventId ev := by
    simp only [agentConfirm, confirmValidate_ok db eventId ev hfind hst]
  constructor
  · intro note hfound
    have hd : dispatchAction db ev = .ok
        ({ db with notes := db.notes.map (fun n =>
            if n.id == note.id then c5note note su cm en db.now else n) },
         noteOkOutput note.id) := by
      unfold dispatchAction
      rw [if_neg hpair, if_pos ⟨hagent, haction⟩, hinput]
      have hx := executeUpdateNote_c5 db nid su cm en
      rw [hfound] at hx
      exact hx
    rw [h1]
    simp only [confirmExecute, hd]
    refine ⟨?_, ?_, ?_⟩
    · trivial
    · trivial
    · have hAE : ({ db with notes := db.notes.map (fun n =>
          if n.id == note.id then c5note note su cm en db.now else n) }
          : DB).agentEvents = db.agentEvents := rfl
      rw [hAE, findAgentEvent_set, hfind, Option.map_some']
  · intro hnone
    have hd : dispatchAction db ev = .error (.noteNotFound nid) := by
      unfold dispatchAction
      rw [if_neg hpair, if_pos ⟨hagent, haction⟩, hinput]
      have hx := executeUpdateNote_c5 db nid su cm en
      rw [hnone] at hx
      exact hx
    rw [h1]
    simp only [confirmExecute, hd, setEventError]
    exact ⟨by trivial, by trivial⟩

/-- The store of the C5 witness: note `n1` and event `e5` awaiting
confirmation of a partial update setting only `summary_text`. -/
def c5Db : DB :=
  { users := ["u1"], workspaces := ["w1"],
    notes := [{ id := "n1", workspace_id := "w1", title := "Test Note", source := .manual,
                content_md := some "Original content", transcript_text := none,
                summary_text := none, entities := none, created_by := "u1",
                created_at := 0, updated_at := 0 }],
    tasks := [],
    agentEvents := [{ id := "e5", workspace_id := "w1", agent := "NoteAgent",
                      action := "update_note",
                      input := some (c5payload "n1" (some (some "S")) none none),
                      output := none, status := .awaiting_confirmation, created_at := 0 }],
    nextId := 0, now := 8 }

/-- Witness for C5 at the concrete store `c5Db`. -/
theorem c5_witness :
    (∀ note, c5Db.notes.find? (fun n => n.id == "n1") = some note →
      (agentConfirm c5Db "e5").1.notes = c5Db.notes.map (fun n =>
        if n.id == note.id then c5note note (some (some "S")) none none c5Db.now else n) ∧
      (agentConfirm c5Db "e5").2 = .ok
        { id := "e5", workspace_id := "w1", agent := "NoteAgent", action := "update_note",
          input := some (c5payload "n1" (some (some "S")) none none),
          output := some (noteOkOutput note.id), status := .executed, created_at := 0 } ∧
      findAgentEvent (agentConfirm c5Db "e5").1.agentEvents "e5" = some
        { id := "e5", workspace_id := "w1", agent := "NoteAgent", action := "update_note",
          input := some (c5payload "n1" (some (some "S")) none none),
          output := some (noteOkOutput note.id), status := .executed, created_at := 0 }) ∧
    (c5Db.notes.find? (fun n => n.id == "n1") = none →
      (agentConfirm c5Db "e5").2 = .error (.noteNotFound "n1") ∧
      (agentConfirm c5Db "e5").1.notes = c5Db.notes) :=
  c5_update_note_confirm c5Db "e5" "n1" (some (some "S")) none none _ rfl rfl rfl rfl rfl

/-! ## Claim C7 -/

/-- The output-nullity condition over a table of events: a non-terminal event
has a null output. -/
def invRows (rows : List AgentEventRow) : Prop :=
  ∀ ev ∈ rows, (ev.status = .draft ∨ ev.status = .awaiting_confirmation) → ev.output = none

/-- The output-nullity condition over the store. -/
def outputNullInv (db : DB) : Prop := invRows db.agentEvents

/-- The store of the C7 counterexample: one workspace, no events. -/
def c7Db : DB :=
  { users := ["u1"], workspaces := ["w1"], notes := [], tasks := [],
    agentEvents := [], nextId := 0, now := 0 }

/-- A `createAgentEvent` call presetting a non-null `output` on a `draft`
event, as the handler's optional `output` field allows. -/
def c7BadOp : AgentOp :=
  .create { workspace_id := "w1", agent := "TaskAgent", action := "create_task",
            input := none, output := some (Json.obj [("x", Json.num 1)]), status := .draft }

/-- **C7 counterexample**: the claim states that every AgentEvent reachable
through propose/createAgentEvent/updateAgentEvent/confirm has a null `output`
while in `draft` or `awaiting_confirmation`.  One `createAgentEvent` call with
`status = draft` and a non-null `output` already produces a reachable record
violating it. -/
theorem c7_counterexample_draft_with_output :
    ∃ ev ∈ (applyOps c7Db [c7BadOp]).agentEvents,
      (ev.status = .draft ∨ ev.status = .awaiting_confirmation) ∧ ev.output ≠ none := by
  refine ⟨{ id := genId 0, workspace_id := "w1", agent := "TaskAgent", action := "create_task",
            input := none, output := some (Json.obj [("x", Json.num 1)]), status := .draft,
            created_at := 0 }, ?_, Or.inl rfl, ?_⟩
  · exact List.mem_singleton.mpr rfl
  · exact fun hc => Option.noConfusion hc

/-- The discipline under which the C7 invariant is preserved: creating a
non-terminal event must leave `output` unset, and a patch must either set a
terminal status, or explicitly null the output when it sets a non-terminal
status, or avoid setting a non-null output when it leaves the status alone. -/
def goodOp : AgentOp → Prop
  | .propose _ _ _ => True
  | .create inp => (inp.status = .draft ∨ inp.status = .awaiting_confirmation) →
      inp.output = none
  | .patch inp =>
      match inp.status with
      | some .executed => True
      | some .error => True
      | some _ => inp.output = some none
      | none => inp.output = none ∨ inp.output = some none
  | .confirm _ => True

/-- A terminal status/output write preserves output-nullity. -/
theorem invRows_set_terminal (rows : List AgentEventRow) (eventId : String)
    (st : AgentEventStatus) (out : Option Json) (hterm : st = .executed ∨ st = .error)
    (h : invRows rows) : invRows (setEventStatusOutput rows eventId st out) := by
  intro ev hmem hds
  simp only [setEventStatusOutput] at hmem
  rcases List.mem_map.mp hmem with ⟨e, he, rfl⟩
  by_cases hid : (e.id == eventId) = true
  · rw [hid] at hds ⊢
    simp only [if_true] at hds
    rcases hterm with h1 | h1 <;> rw [h1] at hds <;> rcases hds with h2 | h2 <;>
      exact AgentEventStatus.noConfusion h2
  · simp only [hid, Bool.false_eq_true, if_false] at hds ⊢
    exact h e he hds

/-- Every single well-disciplined operation preserves output-nullity. -/
theorem outputNullInv_applyOp (db : DB) (op : AgentOp)
    (hinv : outputNullInv db) (hop : goodOp op) : outputNullInv (applyOp db op) := by
  cases op with
  | propose agent payload workspaceId =>
    show outputNullInv (agentPropose db agent payload workspaceId).1
    by_cases hc : db.workspaces.contains workspaceId = true
    · have hE : (agentPropose db agent payload workspaceId).1.agentEvents =
          db.agentEvents ++
            [{ id := genId db.nextId, workspace_id := workspaceId, agent := agent,
               action := resolveAction agent, input := some payload, output := none,
               status := .draft, created_at := db.now }] := by
        unfold agentPropose
        rw [if_pos hc]
      intro ev hmem hds
      rw [hE] at hmem
      rcases List.mem_append.mp hmem with hL | hR
      · exact hinv ev hL hds
      · rw [List.mem_singleton.mp hR]
    · have hE : (agentPropose db agent payload workspaceId).1 = db := by
        unfold agentPropose
        rw [if_neg hc]
      unfold outputNullInv
      rw [hE]
      exact hinv
  | create inp =>
    show outputNullInv (createAgentEvent db inp).1
    by_cases hc : db.workspaces.contains inp.workspace_id = true
    · have hE : (createAgentEvent db inp).1.agentEvents =
          db.agentEvents ++
            [{ id := genId db.nextId, workspace_id := inp.workspace_id, agent := inp.agent,
               action := inp.action, input := inp.input, output := inp.output,
               status := inp.status, created_at := db.now }] := by
        unfold createAgentEvent
        rw [if_pos hc]
      intro ev hmem hds
      rw [hE] at hmem
      rcases List.mem_append.mp hmem with hL | hR
      · exact hinv ev hL hds
      · rw [List.mem_singleton.mp hR] at hds ⊢
        exact hop hds
    · have hE : (createAgentEvent db inp).1 = db := by
        unfold createAgentEvent
        rw [if_neg hc]
      unfold outputNullInv
      rw [hE]
      exact hinv
  | patch inp =>
    obtain ⟨iid, iout, istat⟩ := inp
    show outputNullInv (updateAgentEvent db { id := iid, output := iout, status := istat }).1
    simp only [updateAgentEvent]
    split
    · exact hinv
    · split
      · exact hinv
      · intro ev hmem hds
        rcases List.mem_map.mp hmem with ⟨e, he, rfl⟩
        have hop2 : goodOp (.patch { id := iid, output := iout, status := istat }) := hop
        by_cases hid : (e.id == iid) = true
        · simp only [hid, if_true] at hds ⊢
          rcases istat with _ | st
          · have h3 : iout = none ∨ iout = some none := hop2
            simp only [Option.getD_none] at hds
            rcases h3 with h1 | h1
            · rw [h1]
              simp only [Option.getD_none]
              exact hinv e he hds
            · rw [h1]
              simp only [Option.getD_some]
          · simp only [Option.getD_some] at hds
            cases st with
            | draft =>
              have h3 : iout = some none := hop2
              rw [h3]
              simp only [Option.getD_some]
            | awaiting_confirmation =>
              have h3 : iout = some none := hop2
              rw [h3]
              simp only [Option.getD_some]
            | executed => rcases hds with h2 | h2 <;> exact AgentEventStatus.noConfusion h2
            | error => rcases hds with h2 | h2 <;> exact AgentEventStatus.noConfusion h2
        · simp only [hid, Bool.false_eq_true, if_false] at hds ⊢
          exact hinv e he hds
  | confirm eventId =>
    show outputNullInv (agentConfirm db eventId).1
    rcases hv : confirmValidate db eventId with e | ev
    · simp only [agentConfirm, hv, setEventError]
      exact invRows_set_terminal db.agentEvents eventId .error _ (Or.inr rfl) hinv
    · simp only [agentConfirm, hv]
      rcases hd : dispatchAction db ev with e | ⟨db1, out⟩ <;>
        simp only [confirmExecute, hd, setEventError]
      · exact invRows_set_terminal db.agentEvents eventId .error _ (Or.inr rfl) hinv
      · show invRows (setEventStatusOutput db1.agentEvents eventId .executed (some out))
        rw [dispatchAction_ok_agentEvents db ev db1 out hd]
        exact invRows_set_terminal db.agentEvents eventId .executed _ (Or.inl rfl) hinv

/-- **C7 (amended)**: for every AgentEvent reachable by a sequence of propose,
createAgentEvent, updateAgentEvent and confirm operations — provided each
createAgentEvent supplies no output when creating a `draft` or
`awaiting_confirmation` event, and each updateAgentEvent either sets a
terminal status, or explicitly nulls `output` when setting a non-terminal
status, or sets no non-null output when not setting a status — if the event's
status is `draft` or `awaiting_confirmation` then its `output` is null.
Without that discipline the claim fails (see the counterexample). -/
theorem c7_output_null_invariant_amended (db : DB) (ops : List AgentOp)
    (hinv : outputNullInv db) (hops : ∀ op ∈ ops, goodOp op) :
    outputNullInv (applyOps db ops) := by
  induction ops generalizing db with
  | nil => exact hinv
  | cons op rest ih =>
    exact ih (applyOp db op)
      (outputNullInv_applyOp db op hinv (hops op (List.mem_cons_self op rest)))
      (fun o ho => hops o (List.mem_cons_of_mem op ho))

/-- Operations for the C7 witness: a proposal, a disciplined patch moving it
to `awaiting_confirmation` with an explicit null output, and a confirm. -/
def c7OkOps : List AgentOp :=
  [.propose "TaskAgent" (Json.obj [("title", Json.str "T")]) "w1",
   .patch { id := genId 0, status := some .awaiting_confirmation, output := some none },
   .confirm (genId 0)]

/-- The store of the C7 witness. -/
def c7WDb : DB :=
  { users := ["u1"], workspaces := ["w1"], notes := [], tasks := [],
    agentEvents := [], nextId := 0, now := 0 }

/-- Witness for the amended C7 on a concrete disciplined run. -/
theorem c7_witness : outputNullInv (applyOps c7WDb c7OkOps) := by
  refine c7_output_null_invariant_amended c7WDb c7OkOps
    (fun ev h => absurd h (List.not_mem_nil ev)) ?_
  intro op hop
  rcases List.mem_cons.mp hop with rfl | hop
  · trivial
  rcases List.mem_cons.mp hop with rfl | hop
  · exact rfl
  rcases List.mem_cons.mp hop with rfl | hop
  · trivial
  · exact absurd hop (List.not_mem_nil op)

/-! ## Claim C9 -/

/-- An `Except` result that did not throw. -/
def isOkE {ε α : Type} : Except ε α → Bool
  | .ok _ => true
  | .error _ => false

/-- The racing event of the C9 counterexample: awaiting confirmation with a
fully valid create-task payload. -/
def c9Ev : AgentEventRow :=
  { id := "e9r", workspace_id := "w1", agent := "TaskAgent", action := "create_task",
    input := some (Json.obj [("workspace_id", Json.str "w1"), ("title", Json.str "T"),
                             ("assignee_id", Json.str "u1")]),
    output := none, status := .awaiting_confirmation, created_at := 0 }

/-- The store of the C9 counterexample. -/
def c9Db : DB :=
  { users := ["u1"], workspaces := ["w1"], notes := [], tasks := [],
    agentEvents := [c9Ev], nextId := 0, now := 3 }

/-- **C9 counterexample**: the handler reads, validates and then writes with no
conditional update, so in the interleaving read₁ read₂ execute₁ execute₂ of two
concurrent confirms of `e9r`, both callers pass the `awaiting_confirmation`
check against the same snapshot, both executors run — inserting two task rows —
and both callers return success; no caller observes `InvalidStateError`,
refuting exactly-one-execution. -/
theorem c9_counterexample_double_execution :
    confirmValidate c9Db "e9r" = .ok c9Ev ∧
    isOkE (confirmExecute c9Db "e9r" c9Ev).2 = true ∧
    isOkE (confirmExecute (confirmExecute c9Db "e9r" c9Ev).1 "e9r" c9Ev).2 = true ∧
    (confirmExecute (confirmExecute c9Db "e9r" c9Ev).1 "e9r" c9Ev).1.tasks.length = 2 := by
  exact ⟨rfl, rfl, rfl, rfl⟩

/-- **C9 (amended)**: the code takes no lock and performs no conditional
update, so truly concurrent confirms can each execute the action (see the
counterexample).  What the code does guarantee is sequential mutual exclusion:
once one confirm attempt on an awaiting event has completed, any later confirm
of the same id fails with `InvalidStateError` (over the now-terminal status)
and performs no domain mutation — tasks and notes are untouched. -/
theorem c9_second_sequential_confirm_rejected
    (db : DB) (eventId : String) (ev : AgentEventRow)
    (hfind : findAgentEvent db.agentEvents eventId = some ev)
    (hst : ev.status = .awaiting_confirmation) :
    (∃ st, (st = .executed ∨ st = .error) ∧
      (agentConfirm (agentConfirm db eventId).1 eventId).2 =
        .error (.invalidState eventId st)) ∧
    (agentConfirm (agentConfirm db eventId).1 eventId).1.tasks =
      (agentConfirm db eventId).1.tasks ∧
    (agentConfirm (agentConfirm db eventId).1 eventId).1.notes =
      (agentConfirm db eventId).1.notes := by
  obtain ⟨ev', hfind', hterm⟩ := agentConfirm_terminal_aux db eventId ev hfind hst
  set db1 := (agentConfirm db eventId).1 with hdb1
  have hv : confirmValidate db1 eventId = .error (.invalidState eventId ev'.status) := by
    unfold confirmValidate
    rw [hfind']
    show (if ev'.status = .awaiting_confirmation then Except.ok ev'
          else Except.error (ConfirmError.invalidState eventId ev'.status)) = _
    rw [if_neg]
    intro hc
    rcases hterm with h1 | h1 <;> rw [h1] at hc <;> exact AgentEventStatus.noConfusion hc
  have h2 : agentConfirm db1 eventId =
      (setEventError db1 eventId (.invalidState eventId ev'.status),
       .error (.invalidState eventId ev'.status)) := by
    unfold agentConfirm
    rw [hv]
  rw [h2]
  exact ⟨⟨ev'.status, hterm, rfl⟩, rfl, rfl⟩

/-- The store of the C9 witness: a lone awaiting create-task event confirmed
twice in sequence. -/
def c9WDb : DB :=
  { users := ["u1"], workspaces := ["w1"], notes := [], tasks := [],
    agentEvents := [{ id := "e9s", workspace_id := "w1", agent := "TaskAgent",
                      action := "create_task",
                      input := some (Json.obj [("workspace_id", Json.str "w1"),
                                               ("title", Json.str "T"),
                                               ("assignee_id", Json.str "u1")]),
                      output := none, status := .awaiting_confirmation, created_at := 0 }],
    nextId := 0, now := 3 }

/-- Witness for the amended C9 at the concrete store `c9WDb`. -/
theorem c9_witness :
    (∃ st, (st = .executed ∨ st = .error) ∧
      (agentConfirm (agentConfirm c9WDb "e9s").1 "e9s").2 =
        .error (.invalidState "e9s" st)) ∧
    (agentConfirm (agentConfirm c9WDb "e9s").1 "e9s").1.tasks =
      (agentConfirm c9WDb "e9s").1.tasks ∧
    (agentConfirm (agentConfirm c9WDb "e9s").1 "e9s").1.notes =
      (agentConfirm c9WDb "e9s").1.notes :=
  c9_second_sequential_confirm_rejected c9WDb "e9s" _ rfl rfl

/-! ## Claim C10 -/

/-- **C10**: an event whose action was derived by `agentPropose`
(`action = resolveAction agent`) and that awaits confirmation can only be
executed when its agent is `TaskAgent`: for any other agent the derived pair
is unregistered — `NoteTakingAgent` derives `create_note`, not the registered
`(NoteAgent, update_note)`, and unknown agents derive `propose_action` — so
confirm throws the unsupported-action error and the event ends in `error`; and
whenever confirm returns successfully the agent was `TaskAgent`. -/
theorem c10_only_taskagent_proposals_confirmable
    (db : DB) (eventId : String) (ev : AgentEventRow)
    (hfind : findAgentEvent db.agentEvents eventId = some ev)
    (hact : ev.action = resolveAction ev.agent)
    (hst : ev.status = .awaiting_confirmation) :
    (ev.agent ≠ "TaskAgent" →
      (agentConfirm db eventId).2 = .error (.unsupportedAction ev.agent ev.action) ∧
      findAgentEvent (agentConfirm db eventId).1.agentEvents eventId =
        some { ev with
               status := .error,
               output := some (Json.obj [("error", Json.str
                 ((ConfirmError.unsupportedAction ev.agent ev.action).message))]) }) ∧
    (∀ ev2, (agentConfirm db eventId).2 = .ok ev2 → ev.agent = "TaskAgent") := by
  have h1 : agentConfirm db eventId = confirmExecute db eventId ev := by
    simp only [agentConfirm, confirmValidate_ok db eventId ev hfind hst]
  have key : ev.agent ≠ "TaskAgent" →
      dispatchAction db ev = .error (.unsupportedAction ev.agent ev.action) := by
    intro hne
    have hc1 : ¬ (ev.agent = "TaskAgent" ∧ ev.action = "create_task") := fun hc => hne hc.1
    have hc2 : ¬ (ev.agent = "NoteAgent" ∧ ev.action = "update_note") := by
      rintro ⟨hA, hB⟩
      rw [hA] at hact
      rw [hact] at hB
      exact absurd hB (by decide)
    unfold dispatchAction
    rw [if_neg hc1, if_neg hc2]
  constructor
  · intro hne
    rw [h1]
    simp only [confirmExecute, key hne, setEventError]
    refine ⟨by trivial, ?_⟩
    rw [findAgentEvent_set, hfind, Option.map_some']
  · intro ev2 hok
    by_cases hA : ev.agent = "TaskAgent"
    · exact hA
    · exfalso
      rw [h1] at hok
      simp only [confirmExecute, key hA] at hok
      exact Except.noConfusion hok

/-- The store of the C10 witness: event `e10` created the way `agentPropose`
creates it for `NoteTakingAgent` (derived action `create_note`), then moved to
`awaiting_confirmation`. -/
def c10Db : DB :=
  { users := ["u1"], workspaces := ["w1"], notes := [], tasks := [],
    agentEvents := [{ id := "e10", workspace_id := "w1", agent := "NoteTakingAgent",
                      action := "create_note",
                      input := some (Json.obj [("title", Json.str "N")]),
                      output := none, status := .awaiting_confirmation, created_at := 0 }],
    nextId := 0, now := 5 }

/-- Witness for C10 at the concrete store `c10Db`. -/
theorem c10_witness :
    ("NoteTakingAgent" ≠ "TaskAgent" →
      (agentConfirm c10Db "e10").2 =
        .error (.unsupportedAction "NoteTakingAgent" "create_note") ∧
      findAgentEvent (agentConfirm c10Db "e10").1.agentEvents "e10" =
        some { id := "e10", workspace_id := "w1", agent := "NoteTakingAgent",
               action := "create_note", input := some (Json.obj [("title", Json.str "N")]),
               output := some (Json.obj [("error", Json.str
                 ((ConfirmError.unsupportedAction "NoteTakingAgent" "create_note").message))]),
               status := .error, created_at := 0 }) ∧
    (∀ ev2, (agentConfirm c10Db "e10").2 = .ok ev2 → "NoteTakingAgent" = "TaskAgent") :=
  c10_only_taskagent_proposals_confirmable c10Db "e10" _ rfl rfl rfl

end AgentOS
